import Mathlib

/-!
Verification of the schema-synthesis pipeline of `occ-tools`
(`src/core/local-server/grab/api-schema.js`), via a shallow embedding.

Representation choices:
* JSON values are an inductive type; numbers are abstracted to `Int`
  (no property here depends on numeric fine structure).
* JS objects are association lists keeping insertion order, with
  first-match lookup and in-place replacement on assignment.
* Filesystem paths are lists of segments; the on-disk fixture tree is an
  association list from paths to file contents.
* The network transport and `JSON.parse` are inputs (oracle functions),
  so a run of the pipeline is a pure function of its inputs.
-/

/-- JSON values as produced by a successful `JSON.parse`. Numbers are
abstracted to `Int`; object fields keep insertion order. -/
inductive JSONValue where
  | null
  | bool (b : Bool)
  | num (n : Int)
  | str (s : String)
  | arr (elems : List JSONValue)
  | obj (fields : List (String × JSONValue))

/-- First-match association lookup, as JS property access on an object. -/
def lookupKey {κ α : Type} [BEq κ] (m : List (κ × α)) (k : κ) : Option α :=
  match m with
  | [] => none
  | (k', v) :: rest => if k' == k then some v else lookupKey rest k

/-- JS object assignment `o[k] = v`: replaces the value at an existing key in
place, otherwise appends the new key at the end (JS insertion order). -/
def setKey {κ α : Type} [BEq κ] (m : List (κ × α)) (k : κ) (v : α) : List (κ × α) :=
  match m with
  | [] => [(k, v)]
  | (k', w) :: rest => if k' == k then (k, v) :: rest else (k', w) :: setKey rest k v

/-- Keys of an association list. -/
def keysOf {κ α : Type} (m : List (κ × α)) : List κ := m.map Prod.fst

/-- JS runtime errors that the embedded code can raise. -/
inductive JSError where
  | typeError
  | syntaxError
deriving DecidableEq

/-- JS property read `v.name` on a parsed JSON value: faults on `null`
(TypeError), yields the field (or undefined, `none`) on objects, and
undefined on every other value. -/
def getMember : JSONValue → String → Except JSError (Option JSONValue)
  | JSONValue.null, _ => Except.error JSError.typeError
  | JSONValue.obj fields, name => Except.ok (lookupKey fields name)
  | _, _ => Except.ok none

/-- JS strict equality of a possibly-undefined JSON value against a string
literal: true exactly when the value is that string. -/
def strictEqString : Option JSONValue → String → Bool
  | some (JSONValue.str t), s => t == s
  | _, _ => false

/-- Substring test on character lists: the pattern occurs somewhere. -/
def containsSub (pat : List Char) : List Char → Bool
  | [] => pat.isEmpty
  | c :: rest => pat.isPrefixOf (c :: rest) || containsSub pat rest

/-- Test whether the string contains the literal pattern, as the JS regex
tests and replacements used by the source (all patterns are literal). -/
def strContains (s pat : String) : Bool := containsSub pat.data s.data

/-- Replacement of the first occurrence of a nonempty pattern, on character
lists. -/
def replaceFirstAux (pat repl : List Char) : List Char → List Char
  | [] => []
  | c :: rest =>
    if !pat.isEmpty && pat.isPrefixOf (c :: rest) then repl ++ (c :: rest).drop pat.length
    else c :: replaceFirstAux pat repl rest

/-- JS `String.replace` with a string pattern: replaces only the first
occurrence. The source only uses nonempty patterns. -/
def jsReplaceFirst (s pat repl : String) : String :=
  String.mk (replaceFirstAux pat.data repl.data s.data)

/-- JS `String.toLowerCase` (the source applies it to ASCII method names). -/
def jsToLower (s : String) : String := String.mk (s.data.map Char.toLower)

/-- Errors with which the embedded `makeRequest` can reject. -/
inductive FetchError where
  | transport (message : String)
  | logicalNotFound (body : JSONValue)
  | jsError (e : JSError)

/-- Embeds `ApiSchema.makeRequest` (api-schema.js lines 23-48). The network
transport outcome is an input: either a transport error message or a pair of
response metadata (any type, passed through) and the raw body string.
`JSON.parse` is the input function `parse` (`none` meaning a thrown
SyntaxError). The body is parsed only to detect the embedded 404 marker via
the property read `parsedBody.status`; on success the raw body and the
response metadata are returned. -/
def makeRequest {ρ : Type} (parse : String → Option JSONValue)
    (transport : Except String (ρ × String)) : Except FetchError (ρ × String) :=
  match transport with
  | Except.error e => Except.error (FetchError.transport e)
  | Except.ok (response, body) =>
    match parse body with
    | none => Except.error (FetchError.jsError JSError.syntaxError)
    | some parsedBody =>
      match getMember parsedBody "status" with
      | Except.error e => Except.error (FetchError.jsError e)
      | Except.ok statusValue =>
        if strictEqString statusValue "404" then
          Except.error (FetchError.logicalNotFound parsedBody)
        else Except.ok (response, body)

/-- Embeds the base-path normalization (api-schema.js lines 65-67): when the
basePath does not match the regex testing for the substring `ui`, rewrite the
first occurrence of `ccadmin` and then of `ccstore` to their ui-facing
names. -/
def normalizeBasePath (basePath : String) : String :=
  if strContains basePath "ui" then basePath
  else jsReplaceFirst (jsReplaceFirst basePath "ccadmin" "ccadminui") "ccstore" "ccstoreui"

/-- Registry endpoint-map entry: the fields consumed by the merge loop. -/
structure EndpointMapData where
  method : String
  url : String
  id : String
deriving DecidableEq

/-- One response of an operation: its media-type examples. `none` embeds an
absent `examples` attribute. -/
structure ResponseSpec where
  examples : Option (List (String × JSONValue))

/-- One operation of the metadata catalog (the fields the pipeline reads). -/
structure Operation where
  summary : Option String
  operationId : String
  produces : List String
  parameters : Option JSONValue
  responses : List (String × ResponseSpec)

/-- Methods of one path, keyed by lower-case method name. -/
abbrev PathItem := List (String × Operation)

/-- The paths object of the schema document, keyed by path. -/
abbrev SchemaPaths := List (String × PathItem)

/-- Embeds api-schema.js lines 69-75: collect every operationId of every
method of every path, in iteration order. -/
def collectOperationIds (paths : SchemaPaths) : List String :=
  (paths.map (fun p => p.2.map (fun m => m.2.operationId))).flatten

/-- External configuration value `config.endpoints.dns` (the remote instance
root). Its concrete value is irrelevant to every property proved here. -/
def dnsEndpoint : String := "https://occ-instance"

/-- Outcome of a completed sample fetch attempt (api-schema.js lines 88-89
under the catch of line 91): a transport failure, a 404-marked body, or an
unparsable body degrades to the empty object, otherwise the parsed body is
the sample. -/
def fetchSampleResult (parse : String → Option JSONValue)
    (t : Except String (Unit × String)) : JSONValue :=
  match makeRequest parse t with
  | Except.error _ => JSONValue.obj []
  | Except.ok rb =>
    match parse rb.2 with
    | some v => v
    | none => JSONValue.obj []

/-- Embeds api-schema.js lines 82-91, the optional best-effort sample fetch
for a missing registry entry: only when the lower-cased method is `get` and
the url does not match the regex testing for the literal brace pair does the
code fetch the absolute url; every failure is swallowed and the sample
defaults to the empty object. -/
def enrichSample (parse : String → Option JSONValue)
    (oracle : String → Except String (Unit × String)) (d : EndpointMapData) : JSONValue :=
  if jsToLower d.method == "get" && !strContains d.url "\x7b\x7d" then
    fetchSampleResult parse (oracle (dnsEndpoint ++ d.url))
  else JSONValue.obj []

/-- Embeds api-schema.js lines 93-106: the synthesized minimal operation for
a registry entry absent from the metadata catalog. -/
def synthOperation (d : EndpointMapData) (sample : JSONValue) : Operation :=
  ⟨some d.id, d.id, ["application/json"], none,
    [("200", ⟨some [("application/json", sample)]⟩)]⟩

/-- Normalized path key of a registry entry: its url with the first
occurrence of the registry prefix removed (api-schema.js line 93). -/
def normalizedKey (d : EndpointMapData) : String :=
  jsReplaceFirst d.url "/ccstoreui/v1" ""

/-- Embeds one iteration of the merge loop (api-schema.js lines 78-108): an
entry whose endpointMap key is already among the collected operationIds is
skipped; otherwise a minimal operation is synthesized, with a best-effort
sample, and assigned to the normalized path key — replacing wholesale any
path entry already stored under that key. -/
def mergeStep (operationsIds : List String) (parse : String → Option JSONValue)
    (oracle : String → Except String (Unit × String)) (paths : SchemaPaths)
    (e : String × EndpointMapData) : SchemaPaths :=
  if operationsIds.contains e.1 then paths
  else
    setKey paths (normalizedKey e.2)
      [(jsToLower e.2.method, synthOperation e.2 (enrichSample parse oracle e.2))]

/-- Embeds the whole merge stage: the operationIds snapshot is collected once
(before any insertion), then every endpointMap entry is processed in order. -/
def mergeEndpoints (parse : String → Option JSONValue)
    (oracle : String → Except String (Unit × String)) (paths : SchemaPaths)
    (endpointMap : List (String × EndpointMapData)) : SchemaPaths :=
  endpointMap.foldl (mergeStep (collectOperationIds paths) parse oracle) paths

/-- Synthesized tail produced by the merge loop for a list of entries whose
normalized keys are all fresh: one singleton path entry per missing entry. -/
def synthesizedEntries (parse : String → Option JSONValue)
    (oracle : String → Except String (Unit × String)) (operationsIds : List String)
    (l : List (String × EndpointMapData)) : SchemaPaths :=
  (l.filter (fun e => !operationsIds.contains e.1)).map
    (fun e => (normalizedKey e.2,
      [(jsToLower e.2.method, synthOperation e.2 (enrichSample parse oracle e.2))]))

/-- After an opening brace: a nonempty token, then eventually a closing
brace. -/
def tokenThenCloseAux : List Char → Bool
  | [] => false
  | c :: rest => c != Char.ofNat 125 && rest.contains (Char.ofNat 125)

/-- Detects an opening brace followed by at least one non-closing character
and, later, a closing brace. -/
def hasBracketTokenAux : List Char → Bool
  | [] => false
  | c :: rest => (c == Char.ofNat 123 && tokenThenCloseAux rest) || hasBracketTokenAux rest

/-- Follows the claim wording, not the source: the url contains a
path-parameter placeholder, i.e. an opening brace, a nonempty token, then a
closing brace. -/
def specHasPathPlaceholder (url : String) : Bool :=
  hasBracketTokenAux url.data

/-- Parse function defined on the single body "null", the JSON null literal. -/
def parseNullOnly : String → Option JSONValue :=
  fun s => if s == "null" then some JSONValue.null else none

/-- Parse function defined on the single body consisting of an empty JSON
object literal. -/
def parseEmptyObjOnly : String → Option JSONValue :=
  fun s => if s == "\x7b\x7d" then some (JSONValue.obj []) else none

/-- Parse function defined on the single body "true". -/
def parseTrueOnly : String → Option JSONValue :=
  fun s => if s == "true" then some (JSONValue.bool true) else none

/-- Transport oracle with the network down: every request fails. -/
def oracleDown : String → Except String (Unit × String) :=
  fun _ => Except.error "down"

/-- Transport oracle answering every request with the body "true". -/
def oracleOkTrue : String → Except String (Unit × String) :=
  fun _ => Except.ok ((), "true")

/-- Registry entry whose url carries a bracketed path-parameter token. -/
def placeholderEntry : EndpointMapData :=
  ⟨"GET", "/ccstoreui/v1/products/\x7bid\x7d", "getProduct"⟩

/-- Registry entry for a parameter-free ping endpoint, with a non-GET method
so that no sample fetch is attempted. -/
def pingEntry : EndpointMapData := ⟨"POST", "/ccstoreui/v1/ping", "getPing"⟩

/-- Minimal catalog operation used in concrete scenarios. -/
def opListItems : Operation :=
  ⟨some "List the items", "listItems", ["application/json"], none, []⟩

/-- Minimal catalog operation used in concrete scenarios. -/
def opDeleteItems : Operation :=
  ⟨some "Delete the items", "deleteItems", ["application/json"], none, []⟩

/-- Paths object holding one catalog path with two methods. -/
def pathsItems : SchemaPaths :=
  [("/items", [("get", opListItems), ("delete", opDeleteItems)])]

/-- Registry entry colliding with the catalog path of `pathsItems`. -/
def putItemsEntry : EndpointMapData := ⟨"PUT", "/ccstoreui/v1/items", "putItems"⟩

/-- Endpoint map whose two entries normalize to the same path key. -/
def endpointMapCollision : List (String × EndpointMapData) :=
  [("opA", ⟨"POST", "/ccstoreui/v1/y", "opA"⟩),
   ("opB", ⟨"PUT", "/ccstoreui/v1/y", "opB"⟩)]

/-- Endpoint map with one entry already present in `pathsItems` and one
missing, collision-free entry. -/
def endpointMapGood : List (String × EndpointMapData) :=
  [("listItems", ⟨"GET", "/ccstoreui/v1/items", "listItems"⟩),
   ("getPing", pingEntry)]

/-- Segment-list model of filesystem paths; the segments used by the source
never contain separators, so joining is list append. -/
abbrev FSPath := List String

/-- External configuration root `config.dir.instanceDefinitions.oracleApi`
(api-schema.js line 7), abstracted to a one-segment root. -/
def apiPath : FSPath := ["api"]

/-- Root of the fixture responses tree (api-schema.js line 8). -/
def responsesPath : FSPath := apiPath ++ ["responses"]

/-- Root of the extracted definitions tree (api-schema.js line 9). -/
def definitionsPath : FSPath := apiPath ++ ["definitions"]

/-- Location of the persisted schema document (api-schema.js line 12). -/
def schemaFilePath : FSPath := apiPath ++ ["schema.json"]

/-- Node `path.relative` for the only shapes the source feeds it: a path
under the base has the base stripped; anything else is returned unchanged. -/
def pathRelative (base p : FSPath) : FSPath :=
  if base.isPrefixOf p then p.drop base.length else p

/-- An operation as persisted after materialization: identical fields except
that `responses` has become a relative directory path (api-schema.js
line 184). -/
structure FinalOperation where
  summary : Option String
  operationId : String
  produces : List String
  parameters : Option JSONValue
  responses : FSPath

/-- FixtureDescriptor (api-schema.js lines 132-145). The constant empty
sub-objects (request query parameters, request headers, request body) are
not represented; `contentTypeHeader` embeds the only response header the
source ever sets (line 171). -/
structure Descriptor where
  allowedParameters : Option JSONValue
  requestMethod : String
  dataPath : FSPath
  statusCode : String
  contentTypeHeader : Option String

/-- The schema document as persisted at the end of a run: definitions
removed, responses reduced to relative paths. -/
structure FinalSchemaDocument where
  basePath : String
  paths : List (String × List (String × FinalOperation))

/-- A file in the produced fixture tree. -/
inductive FileContent where
  | descriptorFile (d : Descriptor)
  | dataFile (v : JSONValue)
  | definitionFile (v : JSONValue)
  | schemaFile (doc : FinalSchemaDocument)

/-- The produced fixture tree: an association list from paths to contents
(directory-creation steps are no-ops for content bookkeeping). -/
abbrev FS := List (FSPath × FileContent)

/-- JS truthiness of a JSON value: null, false, zero and the empty string
are falsy. -/
def jsTruthy : JSONValue → Bool
  | JSONValue.null => false
  | JSONValue.bool b => b
  | JSONValue.num n => n != 0
  | JSONValue.str s => s != ""
  | JSONValue.arr _ => true
  | JSONValue.obj _ => true

/-- JS truthiness of a possibly-undefined value. -/
def jsTruthyOpt : Option JSONValue → Bool
  | none => false
  | some v => jsTruthy v

/-- Embeds api-schema.js lines 149-153: a response without an examples
attribute receives a synthetic truthy application/json placeholder example
before content-type selection. -/
def effectiveExamples (resp : ResponseSpec) : List (String × JSONValue) :=
  match resp.examples with
  | none => [("application/json", JSONValue.obj [("sample", JSONValue.bool true)])]
  | some ex => ex

/-- Embeds api-schema.js lines 155-163: when no declared media type belongs
to the web MIME type list, the candidate list collapses to application/json;
the selected content type is the first element of whichever list remains. -/
def selectContentType (webMIMETypes declared : List String) : String :=
  let contentTypeList :=
    if declared.any (fun mimeType => webMIMETypes.contains mimeType) then declared
    else ["application/json"]
  contentTypeList.headD "application/json"

/-- The response data selected for a status code (api-schema.js line 164):
the example stored under the selected content type, if any. -/
def selectedData (webMIMETypes : List String) (resp : ResponseSpec) : Option JSONValue :=
  let ex := effectiveExamples resp
  lookupKey ex (selectContentType webMIMETypes (keysOf ex))

/-- A status-code entry that produces a data file: not the default status,
and its selected sample is defined and truthy. -/
def yieldsData (webMIMETypes : List String) (sr : String × ResponseSpec) : Bool :=
  !(sr.1 == "default") && jsTruthyOpt (selectedData webMIMETypes sr.2)

/-- Absolute path of the data file of an operation's collapsed default
response directory. -/
def dataPathOf (requestId : String) : FSPath :=
  responsesPath ++ [requestId, "default", "data.json"]

/-- Embeds one status-code iteration of the fixture materializer
(api-schema.js lines 122-182): skip the default status; otherwise select a
content type and sample, write data.json when the selected sample is truthy
— substituting the full registry document for the getRegistry operation and
applying `rewriteData`, the stringify / localhost-rewrite / reparse
round-trip of lines 172-178 — and always (re)write descriptor.json, whose
content-type header is set only when data was written. -/
def processStatus (webMIMETypes : List String) (registryJSON : JSONValue)
    (rewriteData : JSONValue → JSONValue) (requestId method : String)
    (parameters : Option JSONValue) (fs : FS) (statusCode : String)
    (resp : ResponseSpec) : FS :=
  if statusCode == "default" then fs
  else
    let responsePath := responsesPath ++ [requestId, "default"]
    let dataDescriptorPath := responsePath ++ ["descriptor.json"]
    let dataPath := responsePath ++ ["data.json"]
    let contentType := selectContentType webMIMETypes (keysOf (effectiveExamples resp))
    let relDataPath := pathRelative responsePath dataPath
    match selectedData webMIMETypes resp with
    | some responseData =>
      if jsTruthy responseData then
        let actualData := if requestId == "getRegistry" then registryJSON else responseData
        let fs1 := setKey fs dataPath (FileContent.dataFile (rewriteData actualData))
        setKey fs1 dataDescriptorPath (FileContent.descriptorFile
          ⟨parameters, method, relDataPath, statusCode, some contentType⟩)
      else
        setKey fs dataDescriptorPath (FileContent.descriptorFile
          ⟨parameters, method, relDataPath, statusCode, none⟩)
    | none =>
      setKey fs dataDescriptorPath (FileContent.descriptorFile
        ⟨parameters, method, relDataPath, statusCode, none⟩)

/-- Embeds one method iteration (api-schema.js lines 114-185): materialize
every status code of the operation, then replace the operation's responses
attribute by the path of its response directory relative to the api root. -/
def processMethod (webMIMETypes : List String) (registryJSON : JSONValue)
    (rewriteData : JSONValue → JSONValue) (fs : FS) (method : String)
    (op : Operation) : FS × FinalOperation :=
  let responseMethodPath := responsesPath ++ [op.operationId]
  let fs' := op.responses.foldl
    (fun acc sr => processStatus webMIMETypes registryJSON rewriteData
      op.operationId method op.parameters acc sr.1 sr.2) fs
  (fs', ⟨op.summary, op.operationId, op.produces, op.parameters,
    pathRelative apiPath responseMethodPath⟩)

/-- Embeds the paths loop (api-schema.js lines 111-186), in iteration
order. -/
def processPaths (webMIMETypes : List String) (registryJSON : JSONValue)
    (rewriteData : JSONValue → JSONValue) (fs : FS) (paths : SchemaPaths) :
    FS × List (String × List (String × FinalOperation)) :=
  paths.foldl (fun st p =>
    let inner := p.2.foldl (fun st2 mo =>
      let r := processMethod webMIMETypes registryJSON rewriteData st2.1 mo.1 mo.2
      (r.1, st2.2 ++ [(mo.1, r.2)])) (st.1, ([] : List (String × FinalOperation)))
    (inner.1, st.2 ++ [(p.1, inner.2)])) (fs, [])

/-- The parsed metadata-catalog document (the attributes the pipeline
reads); `definitions = none` embeds a document lacking the attribute. -/
structure SchemaDocument where
  basePath : String
  paths : SchemaPaths
  definitions : Option (List (String × JSONValue))

/-- Embeds grab (api-schema.js lines 50-202) from the point where both
mandatory fetches have succeeded and both bodies have parsed: normalize the
base path, merge the registry endpointMap, materialize fixtures, extract the
definitions — reading the keys of a missing definitions attribute throws a
TypeError that the surrounding catch turns into a rejection — and finally
persist the reduced schema document. -/
def grab (parse : String → Option JSONValue)
    (oracle : String → Except String (Unit × String)) (webMIMETypes : List String)
    (rewriteData : JSONValue → JSONValue) (fs0 : FS) (schemaJSON : SchemaDocument)
    (registryJSON : JSONValue) (endpointMap : List (String × EndpointMapData)) :
    Except JSError (FS × FinalSchemaDocument) :=
  let basePath := normalizeBasePath schemaJSON.basePath
  let mergedPaths := mergeEndpoints parse oracle schemaJSON.paths endpointMap
  let r := processPaths webMIMETypes registryJSON rewriteData fs0 mergedPaths
  match schemaJSON.definitions with
  | none => Except.error JSError.typeError
  | some defs =>
    let fs2 := defs.foldl (fun acc dv =>
      setKey acc (definitionsPath ++ [dv.1 ++ ".json"])
        (FileContent.definitionFile dv.2)) r.1
    let finalDoc : FinalSchemaDocument := ⟨basePath, r.2⟩
    Except.ok (setKey fs2 schemaFilePath (FileContent.schemaFile finalDoc), finalDoc)

/-- Result of the module entry callback (api-schema.js lines 205-220). -/
inductive ActionOutcome where
  | success
  | failure (e : JSError)
  | noop
deriving DecidableEq

/-- Embeds the module entry: the grab action reports the awaited grab
outcome through the callback — an error value on rejection — and every other
action calls back with nothing. -/
def runApiSchemaAction (action : String)
    (grabOutcome : Except JSError (FS × FinalSchemaDocument)) : ActionOutcome :=
  if action == "grab" then
    match grabOutcome with
    | Except.ok _ => ActionOutcome.success
    | Except.error e => ActionOutcome.failure e
  else ActionOutcome.noop

/-- A web MIME type list for concrete runs. The real list is a static data
file outside the analyzed sources; every general theorem here quantifies
over the list. -/
def sampleWebMIMETypes : List String := ["application/json", "text/html"]

/-- Response declaring a non-web media type first and application/json
second. -/
def respTwoTypes : ResponseSpec :=
  ⟨some [("x-custom/blob", JSONValue.str "blob"),
         ("application/json", JSONValue.obj [("ok", JSONValue.bool true)])]⟩

/-- Response with no examples attribute. -/
def respNoExamples : ResponseSpec := ⟨none⟩

/-- Operation with a single 200 response lacking examples. -/
def opNoExamples : Operation :=
  ⟨some "An operation", "opX", ["application/json"], none, [("200", respNoExamples)]⟩

/-- Operation with a single 200 response carrying a truthy sample. -/
def opWithData : Operation :=
  ⟨some "List the items", "listItems", ["application/json"], none,
    [("200", ⟨some [("application/json", JSONValue.obj [("ok", JSONValue.bool true)])]⟩)]⟩

/-- Schema document lacking the definitions attribute. -/
def schemaNoDefs : SchemaDocument := ⟨"/ccstore/v1", pathsItems, none⟩

/-- Helper: property read never faults on a value other than JSON null. -/
theorem getMember_ok_of_ne_null (v : JSONValue) (h : v ≠ JSONValue.null) (name : String) :
    ∃ st, getMember v name = Except.ok st := by
  cases v with
  | null => exact absurd rfl h
  | bool b => exact ⟨none, rfl⟩
  | num n => exact ⟨none, rfl⟩
  | str s => exact ⟨none, rfl⟩
  | arr elems => exact ⟨none, rfl⟩
  | obj fields => exact ⟨lookupKey fields name, rfl⟩

/-- Helper: looking up the key just set yields the new value. -/
theorem lookupKey_setKey_self {κ α : Type} [BEq κ] [LawfulBEq κ]
    (m : List (κ × α)) (k : κ) (v : α) : lookupKey (setKey m k v) k = some v := by
  induction m with
  | nil => simp [setKey, lookupKey]
  | cons p rest ih =>
    obtain ⟨k', w⟩ := p
    by_cases h : k' == k
    · simp [setKey, lookupKey, h]
    · simp only [setKey, h, Bool.false_eq_true, if_false, lookupKey]
      exact ih

/-- Helper: assigning a fresh key appends the binding at the end. -/
theorem setKey_eq_append {κ α : Type} [BEq κ] [LawfulBEq κ]
    (m : List (κ × α)) (k : κ) (v : α) :
    k ∉ keysOf m → setKey m k v = m ++ [(k, v)] := by
  induction m with
  | nil => intro _; rfl
  | cons p rest ih =>
    intro h
    obtain ⟨k', w⟩ := p
    simp only [keysOf, List.map_cons, List.mem_cons] at h
    push_neg at h
    have hne : (k' == k) = false := beq_eq_false_iff_ne.mpr (fun he => h.1 he.symm)
    simp only [setKey, hne, Bool.false_eq_true, if_false, List.cons_append]
    rw [ih h.2]

/-- Helper: collected operationIds distribute over appended paths. -/
theorem collectOperationIds_append (a b : SchemaPaths) :
    collectOperationIds (a ++ b) =
      collectOperationIds a ++ collectOperationIds b := by
  simp [collectOperationIds]

/-- Helper: the operationIds of a list of synthesized singleton path entries
are the entry ids. -/
theorem collect_synth_aux (parse : String → Option JSONValue)
    (oracle : String → Except String (Unit × String))
    (m : List (String × EndpointMapData)) :
    collectOperationIds (m.map (fun e => (normalizedKey e.2,
      [(jsToLower e.2.method, synthOperation e.2 (enrichSample parse oracle e.2))]))) =
      m.map (fun e => e.2.id) := by
  induction m with
  | nil => rfl
  | cons a t ih =>
    simp only [List.map_cons, collectOperationIds, List.flatten_cons] at ih ⊢
    rw [ih]
    rfl

/-- Helper: the operationIds of the synthesized tail are the ids of the
missing entries. -/
theorem collect_synthesizedEntries (parse : String → Option JSONValue)
    (oracle : String → Except String (Unit × String)) (ops : List String)
    (l : List (String × EndpointMapData)) :
    collectOperationIds (synthesizedEntries parse oracle ops l) =
      (l.filter (fun e => !ops.contains e.1)).map (fun e => e.2.id) := by
  rw [synthesizedEntries]
  exact collect_synth_aux parse oracle _

/-- Helper: when every missing entry's normalized key is fresh for the
accumulator and the missing normalized keys are pairwise distinct, the merge
fold appends exactly one synthesized singleton path entry per missing
entry. -/
theorem mergeFold_eq_append (parse : String → Option JSONValue)
    (oracle : String → Except String (Unit × String)) (ops : List String) :
    ∀ (l : List (String × EndpointMapData)) (acc : SchemaPaths),
    (∀ e ∈ l, ops.contains e.1 = false → normalizedKey e.2 ∉ keysOf acc) →
    List.Pairwise (fun a b => normalizedKey a.2 ≠ normalizedKey b.2)
      (l.filter (fun e => !ops.contains e.1)) →
    l.foldl (mergeStep ops parse oracle) acc =
      acc ++ synthesizedEntries parse oracle ops l := by
  intro l
  induction l with
  | nil =>
    intro acc _ _
    simp [synthesizedEntries]
  | cons e rest ih =>
    intro acc hfresh hpw
    cases hcont : ops.contains e.1 with
    | true =>
      have hstep : mergeStep ops parse oracle acc e = acc := by
        unfold mergeStep
        rw [hcont, if_pos rfl]
      have hp : ¬ ((fun e' : String × EndpointMapData => !ops.contains e'.1) e = true) := by
        intro hx
        have hx' : (!ops.contains e.1) = true := hx
        rw [hcont] at hx'
        simp at hx'
      rw [List.foldl_cons, hstep,
        ih acc (fun e' he' hc' => hfresh e' (List.mem_cons_of_mem _ he') hc')
          (by rwa [@List.filter_cons_of_neg _
            (fun e' : String × EndpointMapData => !ops.contains e'.1) e rest hp] at hpw)]
      congr 1
      rw [synthesizedEntries, synthesizedEntries, @List.filter_cons_of_neg _
        (fun e' : String × EndpointMapData => !ops.contains e'.1) e rest hp]
    | false =>
      have hp : (fun e' : String × EndpointMapData => !ops.contains e'.1) e = true := by
        show (!ops.contains e.1) = true
        rw [hcont]
        decide
      rw [@List.filter_cons_of_pos _
        (fun e' : String × EndpointMapData => !ops.contains e'.1) e rest hp] at hpw
      obtain ⟨hhead, htail⟩ := List.pairwise_cons.mp hpw
      have hstep : mergeStep ops parse oracle acc e =
          acc ++ [(normalizedKey e.2,
            [(jsToLower e.2.method, synthOperation e.2 (enrichSample parse oracle e.2))])] := by
        unfold mergeStep
        rw [hcont, if_neg Bool.false_ne_true]
        exact setKey_eq_append acc _ _ (hfresh e (List.mem_cons_self e rest) hcont)
      have hfresh' : ∀ e' ∈ rest, ops.contains e'.1 = false →
          normalizedKey e'.2 ∉ keysOf (acc ++ [(normalizedKey e.2,
            [(jsToLower e.2.method, synthOperation e.2 (enrichSample parse oracle e.2))])]) := by
        intro e' he' hc'
        have h1 : normalizedKey e'.2 ∉ keysOf acc :=
          hfresh e' (List.mem_cons_of_mem _ he') hc'
        have h2 : normalizedKey e.2 ≠ normalizedKey e'.2 := by
          refine hhead e' (List.mem_filter.mpr ⟨he', ?_⟩)
          show (!ops.contains e'.1) = true
          rw [hc']
          decide
        simp only [keysOf, List.map_append, List.map_cons, List.map_nil, List.mem_append,
          List.mem_cons, List.not_mem_nil, or_false]
        rintro (hmem | heq)
        · exact h1 (by simpa [keysOf] using hmem)
        · exact h2 heq.symm
      rw [List.foldl_cons, hstep, ih _ hfresh' htail]
      rw [List.append_assoc]
      congr 1
      rw [synthesizedEntries, synthesizedEntries, @List.filter_cons_of_pos _
        (fun e' : String × EndpointMapData => !ops.contains e'.1) e rest hp,
        List.map_cons, List.singleton_append]

/-- C8: the base-path normalizer maps "/ccadmin/v1" to "/ccadminui/v1", and
leaves unchanged every basePath that already contains the ui marker
substring. -/
theorem normalizeBasePath_spec :
    normalizeBasePath "/ccadmin/v1" = "/ccadminui/v1" ∧
    ∀ basePath : String, strContains basePath "ui" = true →
      normalizeBasePath basePath = basePath := by
  refine ⟨by decide, ?_⟩
  intro basePath h
  simp [normalizeBasePath, h]

/-- Witness for normalizeBasePath_spec: a ui-marked base path is unchanged. -/
theorem normalizeBasePath_spec_witness :
    strContains "/ccadminui/v1" "ui" = true ∧
    normalizeBasePath "/ccadminui/v1" = "/ccadminui/v1" :=
  ⟨by decide, normalizeBasePath_spec.2 "/ccadminui/v1" (by decide)⟩

/-- C6 counterexample: a transport-successful response whose body is the valid
JSON literal `null` carries no 404 marker, yet makeRequest rejects (the
`status` property read faults on null with a TypeError caught by the same
handler), where the claim predicts resolution with the raw body. -/
theorem makeRequest_counterexample :
    parseNullOnly "null" = some JSONValue.null ∧
    makeRequest parseNullOnly (Except.ok ((), "null")) =
      Except.error (FetchError.jsError JSError.typeError) :=
  ⟨rfl, rfl⟩

/-- C6 amended: full characterization of makeRequest. A transport error
rejects with it; an unparsable body rejects; a parsed body whose `status`
field strictly equals the string "404" rejects with the parsed body; a parsed
body that is JSON null rejects because the status read itself faults; in every
other case the call resolves with the response metadata and the raw body. -/
theorem makeRequest_characterization {ρ : Type} (parse : String → Option JSONValue)
    (r : ρ) (body : String) (e : String) :
    makeRequest parse (Except.error e) =
      (Except.error (FetchError.transport e) : Except FetchError (ρ × String)) ∧
    (parse body = none →
      makeRequest parse (Except.ok (r, body)) =
        Except.error (FetchError.jsError JSError.syntaxError)) ∧
    (∀ v st, parse body = some v → getMember v "status" = Except.ok st →
      strictEqString st "404" = true →
      makeRequest parse (Except.ok (r, body)) =
        Except.error (FetchError.logicalNotFound v)) ∧
    (parse body = some JSONValue.null →
      makeRequest parse (Except.ok (r, body)) =
        Except.error (FetchError.jsError JSError.typeError)) ∧
    (∀ v, parse body = some v → v ≠ JSONValue.null →
      (∀ st, getMember v "status" = Except.ok st → strictEqString st "404" = false) →
      makeRequest parse (Except.ok (r, body)) = Except.ok (r, body)) := by
  refine ⟨rfl, ?_, ?_, ?_, ?_⟩
  · intro h
    simp [makeRequest, h]
  · intro v st hv hst h404
    simp [makeRequest, hv, hst, h404]
  · intro h
    simp [makeRequest, h, getMember]
  · intro v hv hnull h404
    obtain ⟨st, hst⟩ := getMember_ok_of_ne_null v hnull "status"
    simp [makeRequest, hv, hst, h404 st hst]

/-- Witness for makeRequest_characterization: with a body parsing to an empty
object (no 404 marker), the call resolves with the raw body. -/
theorem makeRequest_characterization_witness :
    makeRequest parseEmptyObjOnly (Except.ok ((), "\x7b\x7d")) =
      Except.ok ((), "\x7b\x7d") := by
  have h := @makeRequest_characterization Unit parseEmptyObjOnly () "\x7b\x7d" "e"
  refine h.2.2.2.2 (JSONValue.obj []) rfl (fun hc => JSONValue.noConfusion hc) ?_
  intro st hst
  have h2 : getMember (JSONValue.obj []) "status" = Except.ok none := rfl
  rw [h2] at hst
  rw [(Except.ok.inj hst).symm]
  rfl

/-- C3 counterexample: a GET registry entry whose url carries the bracketed
placeholder token id does attempt the live fetch — the merge sample tracks
the transport oracle (parsed body on success, empty object on failure) —
whereas the claim says a placeholder url suppresses the fetch. -/
theorem sampleFetch_counterexample :
    specHasPathPlaceholder placeholderEntry.url = true ∧
    enrichSample parseTrueOnly oracleOkTrue placeholderEntry = JSONValue.bool true ∧
    enrichSample parseTrueOnly oracleDown placeholderEntry = JSONValue.obj [] := by
  exact ⟨by decide, rfl, rfl⟩

/-- C3 amended: the live sample fetch is attempted exactly when the
lower-cased method is get and the url does not contain the literal
two-character brace pair; when the condition fails, the sample is the empty
object independently of any transport, and when it holds the sample is the
completed fetch outcome of the entry's absolute url. -/
theorem sampleFetch_condition (parse : String → Option JSONValue)
    (o₁ o₂ : String → Except String (Unit × String)) (d : EndpointMapData) :
    (¬ (jsToLower d.method = "get" ∧ strContains d.url "\x7b\x7d" = false) →
      enrichSample parse o₁ d = JSONValue.obj [] ∧
      enrichSample parse o₁ d = enrichSample parse o₂ d) ∧
    ((jsToLower d.method = "get" ∧ strContains d.url "\x7b\x7d" = false) →
      enrichSample parse o₁ d = fetchSampleResult parse (o₁ (dnsEndpoint ++ d.url))) := by
  constructor
  · intro h
    rcases Decidable.not_and_iff_or_not.mp h with h1 | h1
    · have hb : (jsToLower d.method == "get") = false := by
        simp [beq_iff_eq]
        exact h1
      constructor <;> simp [enrichSample, hb]
    · have hb : strContains d.url "\x7b\x7d" = true := by
        cases hc : strContains d.url "\x7b\x7d" with
        | false => exact absurd hc h1
        | true => rfl
      constructor <;> simp [enrichSample, hb]
  · intro h
    simp [enrichSample, h.1, h.2]

/-- Witness for sampleFetch_condition: a parameter-free GET entry attempts the
fetch and uses the parsed body, and the same entry with a POST method does
not consult the transport. -/
theorem sampleFetch_condition_witness :
    enrichSample parseTrueOnly oracleOkTrue ⟨"GET", "/ccstoreui/v1/ping", "getPing"⟩ =
      fetchSampleResult parseTrueOnly (oracleOkTrue (dnsEndpoint ++ "/ccstoreui/v1/ping")) ∧
    enrichSample parseTrueOnly oracleOkTrue pingEntry =
      enrichSample parseTrueOnly oracleDown pingEntry := by
  constructor
  · exact (sampleFetch_condition parseTrueOnly oracleOkTrue oracleDown
      ⟨"GET", "/ccstoreui/v1/ping", "getPing"⟩).2 ⟨by decide, by decide⟩
  · exact ((sampleFetch_condition parseTrueOnly oracleOkTrue oracleDown pingEntry).1
      (by intro hc; exact absurd hc.1 (by decide))).2

/-- C7: a failing sample fetch is recovered locally — the sample degrades to
the empty object and the entry is still inserted at its normalized path key;
the merge step always returns an updated paths object, never an error. -/
theorem enrichment_failure_recovered (parse : String → Option JSONValue)
    (oracle : String → Except String (Unit × String)) (d : EndpointMapData)
    (err : FetchError)
    (hfail : makeRequest parse (oracle (dnsEndpoint ++ d.url)) = Except.error err) :
    enrichSample parse oracle d = JSONValue.obj [] ∧
    ∀ (operationsIds : List String) (paths : SchemaPaths) (k : String),
      k ∉ operationsIds →
      lookupKey (mergeStep operationsIds parse oracle paths (k, d)) (normalizedKey d) =
        some [(jsToLower d.method, synthOperation d (JSONValue.obj []))] := by
  have hsample : enrichSample parse oracle d = JSONValue.obj [] := by
    rw [enrichSample]
    split
    · rw [fetchSampleResult, hfail]
    · rfl
  refine ⟨hsample, ?_⟩
  intro operationsIds paths k hk
  simp [mergeStep, hk, hsample, lookupKey_setKey_self]

/-- Witness for enrichment_failure_recovered: with the network down, a GET
entry is still inserted with the empty-object sample. -/
theorem enrichment_failure_recovered_witness :
    lookupKey (mergeStep [] parseTrueOnly oracleDown []
        ("getProduct", placeholderEntry)) (normalizedKey placeholderEntry) =
      some [(jsToLower placeholderEntry.method,
        synthOperation placeholderEntry (JSONValue.obj []))] :=
  (enrichment_failure_recovered parseTrueOnly oracleDown placeholderEntry
    (FetchError.transport "down") rfl).2 [] [] "getProduct" (by decide)

/-- C9: when a missing registry entry's normalized path key is already present
in the paths object, the merge step replaces the whole path entry with an
object holding only the new entry's single lower-cased method, removing every
method previously registered under that key. -/
theorem collision_replaces_path_entry (parse : String → Option JSONValue)
    (oracle : String → Except String (Unit × String))
    (operationsIds : List String) (paths : SchemaPaths) (k : String)
    (d : EndpointMapData)
    (hmiss : k ∉ operationsIds)
    (hpresent : (lookupKey paths (normalizedKey d)).isSome = true) :
    lookupKey (mergeStep operationsIds parse oracle paths (k, d)) (normalizedKey d) =
      some [(jsToLower d.method, synthOperation d (enrichSample parse oracle d))] := by
  simp [mergeStep, hmiss, lookupKey_setKey_self]

/-- Witness for collision_replaces_path_entry: the registry PUT entry for
/items wipes the get and delete methods of the catalog path. -/
theorem collision_replaces_path_entry_witness :
    lookupKey (mergeStep [] parseTrueOnly oracleDown pathsItems
        ("putItems", putItemsEntry)) (normalizedKey putItemsEntry) =
      some [(jsToLower putItemsEntry.method,
        synthOperation putItemsEntry (enrichSample parseTrueOnly oracleDown putItemsEntry))] :=
  collision_replaces_path_entry parseTrueOnly oracleDown [] pathsItems
    "putItems" putItemsEntry (by decide) (by decide)

/-- C1 counterexample: two registry entries normalize to the same path key,
so the later insertion replaces the earlier one — the first entry's
operationId, although present in the endpointMap (as key and as entry id),
appears nowhere among the merged paths' operationIds. -/
theorem registry_coverage_counterexample :
    ("opA" ∈ keysOf endpointMapCollision ∧
      lookupKey endpointMapCollision "opA" =
        some ⟨"POST", "/ccstoreui/v1/y", "opA"⟩) ∧
    "opA" ∉ collectOperationIds
      (mergeEndpoints parseTrueOnly oracleDown [] endpointMapCollision) :=
  ⟨⟨by decide, by decide⟩, by decide⟩

/-- C1 amended: in the absence of path-key collisions — every entry's id
equals its endpointMap key, the normalized keys of the entries missing from
the catalog are pairwise distinct, and none of them equals an existing path
key — every operationId of the registry endpointMap appears at least once
among the operationIds of the merged paths. -/
theorem registry_coverage (parse : String → Option JSONValue)
    (oracle : String → Except String (Unit × String)) (paths : SchemaPaths)
    (endpointMap : List (String × EndpointMapData))
    (hid : ∀ e ∈ endpointMap, e.2.id = e.1)
    (hnd : ((endpointMap.filter
      (fun e => !(collectOperationIds paths).contains e.1)).map
        (fun e => normalizedKey e.2)).Nodup)
    (hfresh : ∀ e ∈ endpointMap, (collectOperationIds paths).contains e.1 = false →
      normalizedKey e.2 ∉ keysOf paths) :
    ∀ e ∈ endpointMap,
      e.1 ∈ collectOperationIds (mergeEndpoints parse oracle paths endpointMap) := by
  intro e he
  have hpw : List.Pairwise (fun a b => normalizedKey a.2 ≠ normalizedKey b.2)
      (endpointMap.filter (fun e' => !(collectOperationIds paths).contains e'.1)) :=
    List.pairwise_map.mp hnd
  unfold mergeEndpoints
  rw [mergeFold_eq_append parse oracle (collectOperationIds paths) endpointMap paths
    hfresh hpw, collectOperationIds_append]
  cases hcont : (collectOperationIds paths).contains e.1 with
  | true => exact List.mem_append_left _ (List.mem_of_elem_eq_true hcont)
  | false =>
    apply List.mem_append_right
    rw [collect_synthesizedEntries]
    have hmemf : e ∈ endpointMap.filter
        (fun e' => !(collectOperationIds paths).contains e'.1) :=
      List.mem_filter.mpr ⟨he, by
        show (!(collectOperationIds paths).contains e.1) = true
        rw [hcont]
        decide⟩
    have h2 : e.2.id ∈ (endpointMap.filter
        (fun e' => !(collectOperationIds paths).contains e'.1)).map
          (fun e' => e'.2.id) :=
      List.mem_map_of_mem (fun e' : String × EndpointMapData => e'.2.id) hmemf
    rw [hid e he] at h2
    exact h2

/-- Witness for registry_coverage at a collision-free concrete input: the
missing getPing entry's id appears in the merged paths. -/
theorem registry_coverage_witness :
    "getPing" ∈ collectOperationIds
      (mergeEndpoints parseTrueOnly oracleDown pathsItems endpointMapGood) := by
  have h := registry_coverage parseTrueOnly oracleDown pathsItems endpointMapGood
    (by decide) (by decide) (by decide)
  exact h ("getPing", pingEntry) (by decide)

/-- Helper: looking up a different key is unaffected by an assignment. -/
theorem lookupKey_setKey_ne {κ α : Type} [BEq κ] [LawfulBEq κ]
    (m : List (κ × α)) (k k' : κ) (v : α) (h : (k == k') = false) :
    lookupKey (setKey m k v) k' = lookupKey m k' := by
  induction m with
  | nil => simp [setKey, lookupKey, h]
  | cons p rest ih =>
    obtain ⟨k0, w⟩ := p
    by_cases h0 : k0 == k
    · have hk0 : k0 = k := eq_of_beq h0
      subst hk0
      simp [setKey, lookupKey, h]
    · simp only [setKey, h0, Bool.false_eq_true, if_false, lookupKey]
      by_cases h1 : k0 == k'
      · simp [lookupKey, h1]
      · simp only [h1, Bool.false_eq_true, if_false]
        exact ih

/-- Helper: relativizing a path against its own leading base strips it. -/
theorem pathRelative_append (base rest : FSPath) :
    pathRelative base (base ++ rest) = rest := by
  rw [pathRelative, if_pos, List.drop_left]
  exact List.isPrefixOf_iff_prefix.mpr (List.prefix_append base rest)

/-- C2 counterexample: with declared media types x-custom/blob then
application/json and a web list containing application/json only, the
materializer selects x-custom/blob — the first declared type overall, which
does not belong to the list — although the first declared type belonging to
the list is application/json; the descriptor records that selection. -/
theorem contentTypeSelection_counterexample :
    selectContentType ["application/json"] ["x-custom/blob", "application/json"] =
      "x-custom/blob" ∧
    "x-custom/blob" ∉ ["application/json"] ∧
    "application/json" ∈ ["application/json"] ∧
    lookupKey (processStatus ["application/json"] (JSONValue.obj []) id "opY" "get"
        none [] "200" respTwoTypes)
      (responsesPath ++ ["opY", "default", "descriptor.json"]) =
      some (FileContent.descriptorFile
        ⟨none, "get", ["data.json"], "200", some "x-custom/blob"⟩) :=
  ⟨rfl, by decide, by decide, rfl⟩

/-- C2 amended: for every processed operation and status code the selected
content type is the FIRST DECLARED media type whenever at least one declared
media type belongs to the web MIME list, and it is application/json whenever
none of them does. -/
theorem selectContentType_spec (webMIMETypes : List String)
    (d0 : String) (rest : List String) :
    ((∃ m ∈ d0 :: rest, m ∈ webMIMETypes) →
      selectContentType webMIMETypes (d0 :: rest) = d0) ∧
    ((∀ m ∈ d0 :: rest, m ∉ webMIMETypes) →
      selectContentType webMIMETypes (d0 :: rest) = "application/json") := by
  constructor
  · rintro ⟨m, hm, hmem⟩
    have hany : (d0 :: rest).any (fun mt => webMIMETypes.contains mt) = true :=
      List.any_eq_true.mpr ⟨m, hm, List.elem_eq_true_of_mem hmem⟩
    unfold selectContentType
    rw [hany]
    rfl
  · intro h
    have hany : (d0 :: rest).any (fun mt => webMIMETypes.contains mt) = false := by
      rw [List.any_eq_false]
      intro m hm hc
      exact h m hm (List.mem_of_elem_eq_true hc)
    unfold selectContentType
    rw [hany]
    rfl

/-- Witness for selectContentType_spec: one instantiation with a matching
declared type, one with none. -/
theorem selectContentType_spec_witness :
    selectContentType ["application/json"] ["application/json", "text/csv"] =
      "application/json" ∧
    selectContentType ["application/json"] ["x-custom/blob"] = "application/json" := by
  constructor
  · exact (selectContentType_spec ["application/json"] "application/json" ["text/csv"]).1
      ⟨"application/json", by decide, by decide⟩
  · exact (selectContentType_spec ["application/json"] "x-custom/blob" []).2
      (by decide)

/-- Helper: effect of one status-code iteration on the presence of the
operation's data file. -/
theorem processStatus_dataPath (webMIMETypes : List String) (registryJSON : JSONValue)
    (rewriteData : JSONValue → JSONValue) (requestId method : String)
    (parameters : Option JSONValue) (fs : FS) (statusCode : String)
    (resp : ResponseSpec) :
    (lookupKey (processStatus webMIMETypes registryJSON rewriteData requestId method
        parameters fs statusCode resp) (dataPathOf requestId)).isSome =
      ((lookupKey fs (dataPathOf requestId)).isSome ||
        yieldsData webMIMETypes (statusCode, resp)) := by
  have hne : ((responsesPath ++ [requestId, "default", "descriptor.json"] : FSPath) ==
      responsesPath ++ [requestId, "default", "data.json"]) = false := by
    rw [beq_eq_false_iff_ne]
    simp [responsesPath, apiPath]
  by_cases hdef : (statusCode == "default") = true
  · simp only [processStatus, yieldsData]
    rw [if_pos hdef, hdef]
    simp
  · have hdef' : (!(statusCode == "default")) = true := by
      cases hx : statusCode == "default" with
      | false => rfl
      | true => exact absurd hx hdef
    simp only [processStatus, yieldsData, dataPathOf]
    rw [if_neg hdef, hdef', Bool.true_and]
    cases hsel : selectedData webMIMETypes resp with
    | none =>
      simp [jsTruthyOpt, lookupKey_setKey_ne _ _ _ _ hne]
    | some v =>
      cases htr : jsTruthy v with
      | false =>
        simp [jsTruthyOpt, htr, lookupKey_setKey_ne _ _ _ _ hne]
      | true =>
        simp [jsTruthyOpt, htr, lookupKey_setKey_ne _ _ _ _ hne, lookupKey_setKey_self]

/-- Helper: presence of the data file after materializing a list of status
codes. -/
theorem processStatus_fold_dataPath (webMIMETypes : List String)
    (registryJSON : JSONValue) (rewriteData : JSONValue → JSONValue)
    (requestId method : String) (parameters : Option JSONValue) :
    ∀ (l : List (String × ResponseSpec)) (fs : FS),
    (lookupKey (l.foldl (fun acc sr => processStatus webMIMETypes registryJSON
        rewriteData requestId method parameters acc sr.1 sr.2) fs)
      (dataPathOf requestId)).isSome =
      ((lookupKey fs (dataPathOf requestId)).isSome ||
        l.any (yieldsData webMIMETypes)) := by
  intro l
  induction l with
  | nil => intro fs; simp
  | cons sr rest ih =>
    intro fs
    rw [List.foldl_cons, ih, processStatus_dataPath, List.any_cons, Bool.or_assoc]

/-- C4 amended: the descriptor's dataPath resolves, relative to the
descriptor's own directory, to the operation's collapsed data file path; and
starting from a tree without that file, the data file exists after
materializing an operation if and only if at least one of its non-default
status codes selects a defined, truthy sample — where a response lacking an
examples attribute receives a synthetic truthy placeholder and hence does
yield a data file even without any original sample content. -/
theorem dataFile_exists_iff (webMIMETypes : List String) (registryJSON : JSONValue)
    (rewriteData : JSONValue → JSONValue) (fs : FS) (method : String) (op : Operation)
    (hstart : lookupKey fs (dataPathOf op.operationId) = none) :
    ((lookupKey (processMethod webMIMETypes registryJSON rewriteData fs method op).1
        (dataPathOf op.operationId)).isSome = true ↔
      op.responses.any (yieldsData webMIMETypes) = true) ∧
    (responsesPath ++ [op.operationId, "default"]) ++
        pathRelative (responsesPath ++ [op.operationId, "default"])
          (dataPathOf op.operationId) = dataPathOf op.operationId := by
  constructor
  · have hfold := processStatus_fold_dataPath webMIMETypes registryJSON rewriteData
      op.operationId method op.parameters op.responses fs
    rw [hstart] at hfold
    simp only [Option.isSome_none, Bool.false_or] at hfold
    rw [processMethod]
    simp only []
    rw [hfold]
  · have hsplit : dataPathOf op.operationId =
        (responsesPath ++ [op.operationId, "default"]) ++ ["data.json"] := by
      simp [dataPathOf]
    rw [hsplit, pathRelative_append]

/-- Witness for dataFile_exists_iff: the operation with a truthy 200 sample
has its data file present after materialization. -/
theorem dataFile_exists_iff_witness :
    (lookupKey (processMethod sampleWebMIMETypes (JSONValue.obj []) id [] "get"
        opWithData).1 (dataPathOf "listItems")).isSome = true := by
  have h := dataFile_exists_iff sampleWebMIMETypes (JSONValue.obj []) id [] "get"
    opWithData rfl
  exact h.1.mpr (by decide)

/-- C4 counterexample: an operation whose single 200 response has no sample
content at all (no examples attribute) nevertheless gets a data.json file,
holding the synthesized placeholder — the claim requires the file to be
absent when the operation and status had no response sample content. -/
theorem dataFile_counterexample :
    respNoExamples.examples = none ∧
    opNoExamples.responses = [("200", respNoExamples)] ∧
    lookupKey (processMethod sampleWebMIMETypes (JSONValue.obj []) id [] "get"
        opNoExamples).1 (dataPathOf "opX") =
      some (FileContent.dataFile (JSONValue.obj [("sample", JSONValue.bool true)])) :=
  ⟨rfl, rfl, rfl⟩

/-- C5 amended: after materialization the operation's responses attribute
equals the path, relative to the api root, of responses/<operationId> — the
PARENT of the collapsed default directory that holds the descriptor and data
files — for every operation, independently of its statuses. -/
theorem responsesAttr_eq (webMIMETypes : List String) (registryJSON : JSONValue)
    (rewriteData : JSONValue → JSONValue) (fs : FS) (method : String) (op : Operation) :
    (processMethod webMIMETypes registryJSON rewriteData fs method op).2.responses =
      pathRelative apiPath (responsesPath ++ [op.operationId]) ∧
    (processMethod webMIMETypes registryJSON rewriteData fs method op).2.responses =
      ["responses", op.operationId] := by
  refine ⟨rfl, ?_⟩
  show pathRelative apiPath (responsesPath ++ [op.operationId]) = _
  rw [responsesPath, List.append_assoc, pathRelative_append]
  rfl

/-- C5 counterexample: the responses attribute written for a concrete
operation is responses/listItems, while the canonical response directory
holding its descriptor is responses/listItems/default — the two relative
paths differ. -/
theorem responsesAttr_counterexample :
    (processMethod sampleWebMIMETypes (JSONValue.obj []) id [] "get"
        opWithData).2.responses = ["responses", "listItems"] ∧
    lookupKey (processMethod sampleWebMIMETypes (JSONValue.obj []) id [] "get"
        opWithData).1 (responsesPath ++ ["listItems", "default", "descriptor.json"]) =
      some (FileContent.descriptorFile
        ⟨none, "get", ["data.json"], "200", some "application/json"⟩) ∧
    pathRelative apiPath (responsesPath ++ ["listItems", "default"]) =
      ["responses", "listItems", "default"] ∧
    (["responses", "listItems"] : FSPath) ≠ ["responses", "listItems", "default"] :=
  ⟨rfl, rfl, rfl, by decide⟩

/-- C10: when both fetched documents have parsed but the schema document
lacks a definitions attribute, grab rejects with the TypeError raised by
reading the keys of undefined, and the orchestrator's grab callback receives
that error — even though fixture materialization has already run. -/
theorem grab_missing_definitions (parse : String → Option JSONValue)
    (oracle : String → Except String (Unit × String)) (webMIMETypes : List String)
    (rewriteData : JSONValue → JSONValue) (fs0 : FS) (schemaJSON : SchemaDocument)
    (registryJSON : JSONValue) (endpointMap : List (String × EndpointMapData))
    (hdefs : schemaJSON.definitions = none) :
    grab parse oracle webMIMETypes rewriteData fs0 schemaJSON registryJSON endpointMap =
      Except.error JSError.typeError ∧
    runApiSchemaAction "grab"
      (grab parse oracle webMIMETypes rewriteData fs0 schemaJSON registryJSON endpointMap) =
      ActionOutcome.failure JSError.typeError := by
  have h : grab parse oracle webMIMETypes rewriteData fs0 schemaJSON registryJSON
      endpointMap = Except.error JSError.typeError := by
    rw [grab, hdefs]
  refine ⟨h, ?_⟩
  rw [h]
  rfl

/-- Witness for grab_missing_definitions at a concrete schema document
lacking definitions. -/
theorem grab_missing_definitions_witness :
    runApiSchemaAction "grab"
      (grab parseTrueOnly oracleDown sampleWebMIMETypes id [] schemaNoDefs
        (JSONValue.obj []) []) = ActionOutcome.failure JSError.typeError :=
  (grab_missing_definitions parseTrueOnly oracleDown sampleWebMIMETypes id []
    schemaNoDefs (JSONValue.obj []) [] rfl).2
